import Mathlib

/-!
Verification development for the homebridge-lennox-icomfort device control
protocol engine. The definitions below are a shallow embedding of the
TypeScript source: numbers are modelled as rationals (exact arithmetic),
JavaScript exceptions as Except values, optional or possibly-missing values
as Option. Each definition names the source function it embeds.
-/

/-! ## Numeric helpers

JavaScript Math.round(x) is floor(x + 1/2); Number.prototype.toFixed(1)
followed by parseFloat rounds to one decimal place (half up, which agrees
with toFixed on the nonnegative temperatures this code handles).
-/

/-- Model of JavaScript Math.round on rationals. -/
def jsRound (q : ℚ) : ℤ := ⌊q + 1/2⌋

/-- Model of parseFloat(x.toFixed(1)): round to one decimal place. -/
def round1 (q : ℚ) : ℚ := (⌊q * 10 + 1/2⌋ : ℚ) / 10

/-- thermostatAccessory.fahrenheitToCelsius: (f - 32) * 5 / 9. -/
def fahrenheitToCelsius (f : ℚ) : ℚ := (f - 32) * 5 / 9

/-- thermostatAccessory.celsiusToFahrenheit: (c * 9 / 5) + 32. -/
def celsiusToFahrenheit (c : ℚ) : ℚ := c * 9 / 5 + 32

/-! ## Schedule-mode classifier (thermostatAccessory) -/

/-- thermostatAccessory.getManualModeScheduleId: 16 + zone.id. -/
def getManualModeScheduleId (zoneId : ℤ) : ℤ := 16 + zoneId

/-- thermostatAccessory.getOverrideScheduleId: 32 + zone.id. -/
def getOverrideScheduleId (zoneId : ℤ) : ℤ := 32 + zoneId

/-- thermostatAccessory.isZoneManualMode: null schedule id is indeterminate. -/
def isZoneManualMode (zoneId : ℤ) (currentScheduleId : Option ℤ) : Bool :=
  match currentScheduleId with
  | none => false
  | some sid => sid == getManualModeScheduleId zoneId

/-- thermostatAccessory.isZoneOverride: null schedule id is indeterminate. -/
def isZoneOverride (zoneId : ℤ) (currentScheduleId : Option ℤ) : Bool :=
  match currentScheduleId with
  | none => false
  | some sid => sid == getOverrideScheduleId zoneId

/-- The three schedule-mode classifications used by updateSetpoints. -/
inductive ScheduleMode where
  | manual
  | override
  | following
deriving DecidableEq, Repr

/-- The classification decision exactly as the if chain in updateSetpoints
makes it (manual checked first, then override, else following). -/
def classifyScheduleMode (zoneId : ℤ) (currentScheduleId : Option ℤ) : ScheduleMode :=
  if isZoneManualMode zoneId currentScheduleId then .manual
  else if isZoneOverride zoneId currentScheduleId then .override
  else .following

/-! ## Setpoint command builder (thermostatAccessory.updateSetpoints)

The pure command-construction core of updateSetpoints, lines 540-697 of the
accessory source: unit conversion, blended setpoint, schedule command and the
conditional zone-hold command. Network publishing and the in-flight flag are
modelled separately below.
-/

inductive SystemMode where
  | heatAndCool
  | heat
  | cool
  | off
deriving DecidableEq, Repr

inductive FanMode where
  | auto
  | on
  | circulate
deriving DecidableEq, Repr

structure Period where
  desp : ℤ
  hsp : ℤ
  cspC : ℚ
  sp : ℤ
  husp : ℤ
  humidityMode : String
  systemMode : SystemMode
  spC : ℚ
  hspC : ℚ
  csp : ℤ
  startTime : ℤ
  fanMode : FanMode
deriving DecidableEq, Repr

structure PeriodEntry where
  id : ℤ
  period : Period
deriving DecidableEq, Repr

structure Schedule where
  periods : List PeriodEntry
deriving DecidableEq, Repr

structure ScheduleWrapper where
  schedule : Schedule
  id : ℤ
deriving DecidableEq, Repr

structure ScheduleCommand where
  schedules : List ScheduleWrapper
deriving DecidableEq, Repr

structure ScheduleHold where
  scheduleId : ℤ
  exceptionType : String
  enabled : Bool
  expiresOn : String
  expirationMode : String
deriving DecidableEq, Repr

structure ZoneHoldEntry where
  config : ScheduleHold
  id : ℤ
deriving DecidableEq, Repr

structure ZoneHoldCommand where
  zones : List ZoneHoldEntry
deriving DecidableEq, Repr

/-- The JavaScript expression this.currentStartTime || 25200: null and 0 both
fall back to the default. -/
def startTimeOrDefault (currentStartTime : Option ℤ) : ℤ :=
  match currentStartTime with
  | none => 25200
  | some t => if t = 0 then 25200 else t

/-- The JavaScript expression fanMode || userData.fanMode || 'auto'. -/
def fanModeOrDefault (fanMode userFanMode : Option FanMode) : FanMode :=
  match fanMode with
  | some f => f
  | none =>
    match userFanMode with
    | some f => f
    | none => .auto

/-- The pure core of thermostatAccessory.updateSetpoints: from the current
zone schedule id, discovered start time, requested setpoints (hsp, csp, in
the display unit system), system mode, fan mode and unit system, build the
schedule-update command and (when the zone must be moved into override) the
zone-hold command. zoneId is the hard-coded primary zone 0 of the source. -/
def updateSetpointsCommands (currentZoneScheduleId : Option ℤ)
    (currentStartTime : Option ℤ) (hsp csp : ℚ) (systemMode : SystemMode)
    (fanMode userFanMode : Option FanMode) (isFahrenheit : Bool) :
    ScheduleCommand × Option ZoneHoldCommand :=
  let zoneId : ℤ := 0
  let isManualMode := isZoneManualMode zoneId currentZoneScheduleId
  let isOverrideMode := isZoneOverride zoneId currentZoneScheduleId
  let targetScheduleId : ℤ :=
    if isManualMode then getManualModeScheduleId zoneId
    else if isOverrideMode then getOverrideScheduleId zoneId
    else getOverrideScheduleId zoneId
  let needsHold : Bool :=
    if isManualMode then false
    else if isOverrideMode then false
    else true
  let hspValue := hsp
  let cspValue := csp
  let hspF := if isFahrenheit then hspValue else celsiusToFahrenheit hspValue
  let cspF := if isFahrenheit then cspValue else celsiusToFahrenheit cspValue
  let hspC := if isFahrenheit then fahrenheitToCelsius hspValue else hspValue
  let cspC := if isFahrenheit then fahrenheitToCelsius cspValue else cspValue
  let spF : ℤ :=
    if systemMode = .heatAndCool then jsRound ((hspF + cspF) / 2)
    else if systemMode = .heat then jsRound hspF else jsRound cspF
  let spC : ℚ :=
    if systemMode = .heatAndCool then round1 ((hspC + cspC) / 2)
    else if systemMode = .heat then round1 hspC else round1 cspC
  let husp : ℤ := 40
  let desp : ℤ := 55
  let humidityMode := "off"
  let startTime := startTimeOrDefault currentStartTime
  let period : Period :=
    { desp := desp
      hsp := jsRound hspF
      cspC := round1 cspC
      sp := jsRound (spF : ℚ)
      husp := husp
      humidityMode := humidityMode
      systemMode := systemMode
      spC := spC
      hspC := round1 hspC
      csp := jsRound cspF
      startTime := startTime
      fanMode := fanModeOrDefault fanMode userFanMode }
  let scheduleCommand : ScheduleCommand :=
    { schedules := [{ schedule := { periods := [{ id := 0, period := period }] }
                      id := targetScheduleId }] }
  let holdCommand : Option ZoneHoldCommand :=
    if needsHold then
      some { zones := [{ config := { scheduleId := targetScheduleId
                                     exceptionType := "hold"
                                     enabled := true
                                     expiresOn := "0"
                                     expirationMode := "nextPeriod" }
                         id := zoneId }] }
    else none
  (scheduleCommand, holdCommand)

/-- thermostatAccessory.setTargetTemperature, auto branch (state 3): the
HomeKit target (Celsius) is converted to the display units, then split into
heating and cooling setpoints around a gap of 3 F or 1.5 C on each side, and
handed to updateSetpoints. -/
def setTargetTemperatureAuto (targetTemperatureC : ℚ)
    (isFahrenheit : Bool) (currentZoneScheduleId currentStartTime : Option ℤ)
    (systemMode : SystemMode) (fanMode userFanMode : Option FanMode) :
    ScheduleCommand × Option ZoneHoldCommand :=
  let targetTemp :=
    if isFahrenheit then celsiusToFahrenheit targetTemperatureC
    else targetTemperatureC
  let gap : ℚ := if isFahrenheit then 3 else 3/2
  updateSetpointsCommands currentZoneScheduleId currentStartTime
    (targetTemp - gap) (targetTemp + gap) systemMode fanMode userFanMode
    isFahrenheit

/-- The single period carried by a built schedule command, when the command
has the one-wrapper one-period shape updateSetpoints always produces. -/
def schedulePeriodOf (c : ScheduleCommand) : Option Period :=
  match c.schedules with
  | [w] =>
    match w.schedule.periods with
    | [pe] => some pe.period
    | _ => none
  | _ => none

/-! ## Command dispatcher (lennoxClient.publishCommand)

publishCommand posts the message inside a for loop of at most retries
attempts (default 3). Each iteration performs one send; what the transport
answers on attempt i is modelled by the i-th element of an outcome list whose
length is the retry bound, so the source test attempt < retries becomes the
test that the list tail is nonempty. The validation throw for a protocol
code other than 1 happens inside the try block, so it is caught by the same
catch; the caught Error has no response field, so it reaches the final
network-error branch of the catch and is retried there.
-/

/-- What one send of the command can come back with: an HTTP 2xx body with a
protocol code, an HTTP error status (axios error with a response), or a
network failure (axios error without a response). -/
inductive AttemptOutcome where
  | response (code : ℤ) (message : String) (retryAfter : ℤ)
  | httpError (status : ℤ)
  | networkError
deriving DecidableEq, Repr

/-- The error value publishCommand finally throws. -/
inductive PublishError where
  | codeError (code : ℤ) (message : String)
  | httpFailure (status : ℤ)
  | networkFailure
  | noAttempts
deriving DecidableEq, Repr

/-- A successful publish result: the protocol response body. -/
structure PublishSuccess where
  code : ℤ
  message : String
  retryAfter : ℤ
deriving DecidableEq, Repr

/-- The retry loop of lennoxClient.publishCommand. The list holds one
outcome per remaining attempt; lastError is the error stored by the previous
iterations. The returned natural number counts the sends performed. -/
def publishLoop : List AttemptOutcome → Option PublishError →
    Except PublishError PublishSuccess × ℕ
  | [], lastError => (.error (lastError.getD .noAttempts), 0)
  | out :: rest, _ =>
    match out with
    | .response c m r =>
      if c = 1 then (.ok ⟨c, m, r⟩, 1)
      else
        match rest with
        | [] => (.error (.codeError c m), 1)
        | _ :: _ =>
          let next := publishLoop rest (some (.codeError c m))
          (next.1, next.2 + 1)
    | .httpError s =>
      if s = 401 ∨ s = 400 then (.error (.httpFailure s), 1)
      else
        match rest with
        | [] => (.error (.httpFailure s), 1)
        | _ :: _ =>
          if 500 ≤ s then
            let next := publishLoop rest (some (.httpFailure s))
            (next.1, next.2 + 1)
          else (.error (.httpFailure s), 1)
    | .networkError =>
      match rest with
      | [] => (.error .networkFailure, 1)
      | _ :: _ =>
        let next := publishLoop rest (some .networkFailure)
        (next.1, next.2 + 1)

/-- lennoxClient.publishCommand with its default bound of 3 attempts: the
outcome list carries exactly one entry per allowed attempt. -/
def publishCommand (outcomes : List AttemptOutcome) :
    Except PublishError PublishSuccess × ℕ :=
  publishLoop outcomes none

/-- An outcome the dispatcher treats as a transport failure it may retry:
a network error, or an HTTP 5xx response. -/
def isTransportFailure : AttemptOutcome → Bool
  | .networkError => true
  | .httpError s => decide (500 ≤ s)
  | .response _ _ _ => false

/-- The error publishCommand surfaces for a given transport failure. -/
def errorOfOutcome : AttemptOutcome → PublishError
  | .networkError => .networkFailure
  | .httpError s => .httpFailure s
  | .response c m _ => .codeError c m

/-! ## Unit inference (platform.parseRetrieveMessagesToSubstatuses)

The dispUnits decision of parseRetrieveMessagesToSubstatuses, lines 726-786
of the local platform source. Inputs are the config override string, the
period setpoints hsp and hspC (hspC after parseFloat) and the raw status
temperature; an absent field is none. The second component records which
branch of the if chain produced the answer.
-/

inductive DispUnits where
  | F
  | C
deriving DecidableEq, Repr

/-- The branch of the heuristic that decided the unit system. -/
inductive UnitBranch where
  | explicitConfig
  | bothDiffF
  | bothRawC
  | bothRangeF
  | bothRangeC
  | bothFallbackDefault
  | hspRangeF
  | hspRangeC
  | hspFallbackDefault
  | tempRangeF
  | tempRangeC
  | tempFallbackDefault
  | noneDefault
deriving DecidableEq, Repr

/-- The dispUnits inference of parseRetrieveMessagesToSubstatuses. -/
def inferDispUnits (configUnit : String) (hsp hspC temperature : Option ℚ) :
    DispUnits × UnitBranch :=
  if configUnit = "F" then (.F, .explicitConfig)
  else if configUnit = "C" then (.C, .explicitConfig)
  else
    match hsp, hspC with
    | some h, some hC =>
      let expectedC := (h - 32) * 5 / 9
      let hspCValue := hC
      let diff := |hspCValue - expectedC|
      if diff < 2 then (.F, .bothDiffF)
      else if |hspCValue - h| < 2 then (.C, .bothRawC)
      else if 50 ≤ h ∧ h ≤ 90 then (.F, .bothRangeF)
      else if 10 ≤ h ∧ h ≤ 35 then (.C, .bothRangeC)
      else (.F, .bothFallbackDefault)
    | some h, none =>
      if 50 ≤ h ∧ h ≤ 90 then (.F, .hspRangeF)
      else if 10 ≤ h ∧ h ≤ 35 then (.C, .hspRangeC)
      else (.F, .hspFallbackDefault)
    | none, _ =>
      match temperature with
      | some t =>
        if 50 ≤ t ∧ t ≤ 90 then (.F, .tempRangeF)
        else if 10 ≤ t ∧ t ≤ 35 then (.C, .tempRangeC)
        else (.F, .tempFallbackDefault)
      | none => (.F, .noneDefault)

/-! ## Raw telemetry values and the zone-status resolver

A JSON-like value model for the untyped responseData handled by
parseZonesToSubstatuses, with the JavaScript notions the source leans on:
truthiness, typeof x === 'object' (null and arrays included), property
lookup (absent property = none) and JSON.stringify (total here, since the
value model has no cycles; string escaping is elided as no claim depends on
the exact text).
-/

inductive Json where
  | null
  | bool (b : Bool)
  | num (q : ℚ)
  | str (s : String)
  | arr (elems : List Json)
  | obj (fields : List (String × Json))
deriving BEq, Repr

/-- JavaScript truthiness of a value. -/
def Json.truthy : Json → Bool
  | .null => false
  | .bool b => b
  | .num q => decide (q ≠ 0)
  | .str s => decide (s ≠ "")
  | .arr _ => true
  | .obj _ => true

/-- typeof v === 'object' (true for null and for arrays). -/
def Json.isObjectType : Json → Bool
  | .null => true
  | .arr _ => true
  | .obj _ => true
  | _ => false

/-- Decimal digit value of a character (48 is the code point of zero). -/
def jsDigit? (c : Char) : Option ℕ :=
  let n := c.toNat
  if 48 ≤ n ∧ n ≤ 57 then some (n - 48) else none

/-- Accumulate a decimal numeral from characters. -/
def jsIndexGo : List Char → ℕ → Option ℕ
  | [], acc => some acc
  | c :: cs, acc =>
    match jsDigit? c with
    | some d => jsIndexGo cs (acc * 10 + d)
    | none => none

/-- A property key read as an array index when it is a decimal numeral. -/
def jsIndex? (key : String) : Option ℕ :=
  match key.data with
  | [] => none
  | chars => jsIndexGo chars 0

/-- Property lookup; none models undefined. JavaScript arrays are indexable
by canonical numeric strings, which the probe below uses with key 1. -/
def Json.get? : Json → String → Option Json
  | .obj fields, key => fields.lookup key
  | .arr elems, key =>
    match jsIndex? key with
    | some i => elems[i]?
    | none => none
  | _, _ => none

/-- The lookup-then-truthiness pattern if (v.key) ...: the property value
when it exists and is truthy. -/
def Json.getTruthy (v : Json) (key : String) : Option Json :=
  match v.get? key with
  | some w => if w.truthy then some w else none
  | none => none

mutual

/-- JSON.stringify on the value model (escaping elided). -/
def Json.stringify : Json → String
  | .null => "null"
  | .bool true => "true"
  | .bool false => "false"
  | .num q => toString q
  | .str s => "\"" ++ s ++ "\""
  | .arr elems => "[" ++ Json.stringifyList elems ++ "]"
  | .obj fields => "\x7b" ++ Json.stringifyFields fields ++ "\x7d"

/-- Comma-joined stringification of array elements. -/
def Json.stringifyList : List Json → String
  | [] => ""
  | [v] => v.stringify
  | v :: rest => v.stringify ++ "," ++ Json.stringifyList rest

/-- Comma-joined stringification of object fields. -/
def Json.stringifyFields : List (String × Json) → String
  | [] => ""
  | [(k, v)] => "\"" ++ k ++ "\":" ++ v.stringify
  | (k, v) :: rest => "\"" ++ k ++ "\":" ++ v.stringify ++ "," ++ Json.stringifyFields rest

end

/-- JavaScript String(v) coercion, as far as the model needs it. -/
def Json.jsString : Json → String
  | .null => "null"
  | .bool true => "true"
  | .bool false => "false"
  | .num q => toString q
  | .str s => s
  | .arr elems => Json.stringifyList elems
  | .obj _ => "[object Object]"

/-- The last probe of parseZonesToSubstatuses: responseData.zones is a
truthy non-array object, wrapped as a one-zone array. -/
def zonesSingleObject (responseData : Json) : Option (List Json) :=
  match responseData.getTruthy "zones" with
  | some (.obj fields) => some [.obj fields]
  | _ => none

/-- The late probes: zones under Data, then a single zone object. -/
def zonesArrayTertiary (responseData : Json) : Option (List Json) :=
  match responseData.getTruthy "Data" with
  | some dataVal =>
    match dataVal.getTruthy "zones" with
    | some (.arr zones) => some zones
    | _ => zonesSingleObject responseData
  | none => zonesSingleObject responseData

/-- JavaScript member access v.key as the probe evaluates it: reading a
property of null (or undefined) throws a TypeError; on every other value it
yields the property or undefined. -/
def jsMember (v : Json) (key : String) : Except String (Option Json) :=
  match v with
  | .null => .error ("TypeError: cannot read " ++ key ++ " of null")
  | other => .ok (other.get? key)

/-- The middle probe: the condition Array.isArray and length positive and
element-0 id defined, evaluated left to right, so the id access runs on
whatever the first array element is and can throw. -/
def zonesArraySecondary (responseData : Json) : Except String (Option (List Json)) :=
  match responseData with
  | .arr (z0 :: rest) =>
    match jsMember z0 "id" with
    | .error e => .error e
    | .ok idVal =>
      if idVal.isSome then .ok (some (z0 :: rest))
      else .ok (zonesArrayTertiary (.arr (z0 :: rest)))
  | other => .ok (zonesArrayTertiary other)

/-- The zones-array probe of parseZonesToSubstatuses: the elif chain that
looks for zones at the top level, under the key 1, as the payload itself,
under Data, or as a single zone object, in that order. -/
def zonesArrayOf (responseData : Json) : Except String (Option (List Json)) :=
  match responseData.getTruthy "zones" with
  | some (.arr zones) => .ok (some zones)
  | _ =>
    match responseData.getTruthy "1" with
    | some one =>
      match one.getTruthy "zones" with
      | some (.arr zones) => .ok (some zones)
      | _ => zonesArraySecondary responseData
    | none => zonesArraySecondary responseData

/-- The user_data extraction chain of parseZonesToSubstatuses for one zone:
user_data as string or object, then userData, then data.user_data, then a
data object that looks like UserData (zit or opMode present). A truthy
user_data of any other type stops the chain with nothing, exactly as the
source leaves userDataString null without trying the later branches. -/
def extractUserData (zone : Json) : Option String :=
  match zone.getTruthy "user_data" with
  | some (.str s) => some s
  | some (.arr elems) => some (Json.stringify (.arr elems))
  | some (.obj fields) => some (Json.stringify (.obj fields))
  | some _ => none
  | none =>
    match zone.getTruthy "userData" with
    | some (.str s) => some s
    | some (.arr elems) => some (Json.stringify (.arr elems))
    | some (.obj fields) => some (Json.stringify (.obj fields))
    | some _ => none
    | none =>
      match zone.getTruthy "data" with
      | some dataVal =>
        match dataVal.getTruthy "user_data" with
        | some (.str s) => some s
        | some (.arr elems) => some (Json.stringify (.arr elems))
        | some (.obj fields) => some (Json.stringify (.obj fields))
        | some _ => none
        | none =>
          if dataVal.isObjectType then
            if (dataVal.get? "zit").isSome ∨ (dataVal.get? "opMode").isSome then
              some dataVal.stringify
            else none
          else none
      | none => none

/-- Timestamp pair carried by a substatus. -/
structure SubTs where
  sec : ℤ
  nanosec : ℤ
deriving DecidableEq, Repr

/-- The SubStatus record parseZonesToSubstatuses pushes per zone. -/
structure SubStatusRec where
  relay_id : String
  guid : String
  dds_guid : String
  active : Bool
  active_ts : SubTs
  alive : Bool
  alive_ts : SubTs
  user_data : String
deriving DecidableEq, Repr

/-- The body of the per-zone loop: skip non-object zones, extract user_data,
and build the substatus with freshly generated liveness timestamps (now is
Date.now() in milliseconds). -/
def zoneToSubstatus (now : ℤ) (zone : Json) : Option SubStatusRec :=
  if ¬ (zone.truthy ∧ zone.isObjectType) then none
  else
    match extractUserData zone with
    | none => none
    | some uds =>
      let zoneId :=
        match zone.get? "id" with
        | some v => v.jsString
        | none => "0"
      let ts : SubTs := ⟨now / 1000, now % 1000 * 1000000⟩
      some { relay_id := zoneId, guid := zoneId, dds_guid := zoneId
             active := true, active_ts := ts, alive := true, alive_ts := ts
             user_data := uds }

/-- The imperative push loop over the zones array, accumulator-style exactly
as the source pushes into the substatuses array. -/
def zonesPushLoop (now : ℤ) : List Json → List SubStatusRec → List SubStatusRec
  | [], acc => acc
  | zone :: rest, acc =>
    match zoneToSubstatus now zone with
    | some s => zonesPushLoop now rest (acc ++ [s])
    | none => zonesPushLoop now rest acc

/-- platform.parseZonesToSubstatuses: guard non-objects, probe for the zones
array, then push one substatus per zone with decodable user_data. The
Except layer carries the one unguarded property access of the probe. -/
def parseZonesToSubstatuses (now : ℤ) (responseData : Json) :
    Except String (List SubStatusRec) :=
  if ¬ (responseData.truthy ∧ responseData.isObjectType) then .ok []
  else
    match zonesArrayOf responseData with
    | .error e => .error e
    | .ok none => .ok []
    | .ok (some zones) => .ok (zonesPushLoop now zones [])

/-! ## Primary zone data (platform.getPrimaryZoneData)

system.status and its substatuses come from outside JSON, so the source
guards them at runtime; Option models the possibly-missing fields and an
Except-valued parse models JSON.parse of the embedded user_data string,
which may throw. The type of the parsed user data is a parameter since the
source casts without inspecting it.
-/

structure SystemStatusData where
  substatuses : Option (List SubStatusRec)

structure SystemData where
  status : Option SystemStatusData

/-- The try/catch combinator for Except. -/
def exceptCatch {ε α : Type} (body : Except ε α) (handler : ε → Except ε α) :
    Except ε α :=
  match body with
  | .ok v => .ok v
  | .error e => handler e

/-- platform.getPrimaryZoneData: pick the first active and alive substatus
(else the first), decode its embedded user_data with the given parse, and
return null on guard failure or parse exception. -/
def getPrimaryZoneData {υ : Type} (parse : String → Except String υ)
    (system : SystemData) : Except String (Option (υ × SubStatusRec)) :=
  match system.status with
  | none => .ok none
  | some st =>
    match st.substatuses with
    | none => .ok none
    | some subs =>
      if subs.length = 0 then .ok none
      else
        let found := subs.find? fun s => s.active && s.alive
        let sub := match found with | some s => some s | none => subs.head?
        match sub with
        | none => .ok none
        | some s =>
          if s.user_data = "" then .ok none
          else
            exceptCatch
              (match parse s.user_data with
               | .ok u => .ok (some (u, s))
               | .error e => .error e)
              (fun _ => .ok none)

/-! ## updateSetpoints effect skeleton (in-flight flag)

The effectful shell of thermostatAccessory.updateSetpoints around the pure
builder: the updateInProgress flag is read, set, and then reset in a finally
block that encloses every path of the body (missing zone data, publish
exception, protocol code validation, success). The zone data lookup and the
two publishes are oracles. State is the flag value.
-/

inductive UpdateError where
  | noZoneData
  | publishFailed (e : PublishError)
  | badResponseCode (code : ℤ)
deriving DecidableEq, Repr

/-- The try/finally shape: run the body from the given flag state, then run
the finally mutation on the state, keeping the body result (the source
finally block only clears the flag, it cannot itself throw). -/
def flagTryFinally (body : Bool → Except UpdateError Unit × Bool)
    (fin : Bool → Bool) (s : Bool) : Except UpdateError Unit × Bool :=
  let r := body s
  (r.1, fin r.2)

/-- thermostatAccessory.updateSetpoints as a state transformer on the
updateInProgress flag. A call that finds the flag set waits through the
bounded poll loop; with no concurrent completer the flag cannot change, so
the call is abandoned and returns leaving the flag as it found it. A call
that proceeds sets the flag, runs the body (build commands, publish the
schedule command, validate its code, conditionally publish and validate the
hold), and clears the flag in the finally block. -/
def updateSetpointsRun (currentZoneScheduleId currentStartTime : Option ℤ)
    (hsp csp : ℚ) (systemMode : SystemMode) (fanMode : Option FanMode)
    (zoneData : Option (Bool × Option FanMode))
    (schedOutcome holdOutcome : Except PublishError ℤ)
    (updateInProgress : Bool) : Except UpdateError Unit × Bool :=
  if updateInProgress then (.ok (), updateInProgress)
  else
    flagTryFinally
      (fun flagInTry =>
        let result : Except UpdateError Unit :=
          match zoneData with
          | none => .error .noZoneData
          | some (isFahrenheit, userFanMode) =>
            let cmds := updateSetpointsCommands currentZoneScheduleId
              currentStartTime hsp csp systemMode fanMode userFanMode
              isFahrenheit
            match schedOutcome with
            | .error e => .error (.publishFailed e)
            | .ok code =>
              if code ≠ 1 then .error (.badResponseCode code)
              else if (cmds.2).isSome then
                match holdOutcome with
                | .error e => .error (.publishFailed e)
                | .ok holdCode =>
                  if holdCode ≠ 1 then .error (.badResponseCode holdCode)
                  else .ok ()
              else .ok ()
        (result, flagInTry))
      (fun _ => false)
      true

/-! ## Two overlapping updateSetpoints calls

A small-step interleaving model of two calls to updateSetpoints sharing the
per-zone updateInProgress flag, at the granularity of the await points of
the source (JavaScript runs the code between awaits atomically). The first
call is already inside the locked section, the second arrives at the flag
check; a schedule lists which call advances at each step. dispatchSteps is
the number of await points inside the locked section; its exact value does
not matter to the claims.
-/

/-- Where a call is: at the initial flag check, asleep inside the bounded
wait loop having completed the given number of polls, inside the locked
dispatch section with the given number of await points left, done, or
abandoned by the wait-loop timeout. -/
inductive CallPhase where
  | entry
  | waiting (polls : ℕ)
  | locked (stepsLeft : ℕ)
  | finished
  | abandoned
deriving DecidableEq, Repr

/-- Await points inside the locked section (publishes and settle delays). -/
def dispatchSteps : ℕ := 4

/-- One atomic segment of a call, given the shared flag: the entry check
takes the lock or enters the wait loop; a waiting call re-checks the flag
after its sleep (for loop bound 50 polls, then the abandon return); a locked
call advances, the last segment being the finally that clears the flag. -/
def stepPhase (flag : Bool) : CallPhase → CallPhase × Bool
  | .entry => if flag then (.waiting 0, flag) else (.locked dispatchSteps, true)
  | .waiting polls =>
    if ¬ flag then (.locked dispatchSteps, true)
    else if polls + 1 < 50 then (.waiting (polls + 1), flag)
    else (.abandoned, flag)
  | .locked 0 => (.finished, false)
  | .locked (stepsLeft + 1) => (.locked stepsLeft, flag)
  | .finished => (.finished, flag)
  | .abandoned => (.abandoned, flag)

structure TwoCallState where
  first : CallPhase
  second : CallPhase
  updateInProgress : Bool
deriving DecidableEq, Repr

inductive CallId where
  | first
  | second
deriving DecidableEq, Repr

/-- Advance the named call by one atomic segment. -/
def stepTwoCall (s : TwoCallState) : CallId → TwoCallState
  | .first =>
    let r := stepPhase s.updateInProgress s.first
    { s with first := r.1, updateInProgress := r.2 }
  | .second =>
    let r := stepPhase s.updateInProgress s.second
    { s with second := r.1, updateInProgress := r.2 }

/-- Run a schedule of interleaved segments. -/
def runTwoCall (s : TwoCallState) : List CallId → TwoCallState
  | [] => s
  | c :: rest => runTwoCall (stepTwoCall s c) rest

/-- The scenario of the claim: the first call holds the flag and is inside
the locked section; the identical second call arrives at the flag check. -/
def secondArrivesInFlight : TwoCallState :=
  { first := .locked dispatchSteps, second := .entry, updateInProgress := true }

/-- A call has dispatched its command pair once it enters the locked section
(the schedule publish is its first segment). -/
def hasDispatched : CallPhase → Bool
  | .locked _ => true
  | .finished => true
  | _ => false

/-- A call currently inside the locked dispatch section. -/
def isLockedPhase : CallPhase → Bool
  | .locked _ => true
  | _ => false

/-- How many of the two calls have dispatched a command pair. -/
def pairsDispatched (s : TwoCallState) : ℕ :=
  (if hasDispatched s.first then 1 else 0) +
    (if hasDispatched s.second then 1 else 0)

/-! ## Rounding lemmas -/

theorem jsRound_add_int (x : ℚ) (n : ℤ) : jsRound (x + n) = jsRound x + n := by
  unfold jsRound
  rw [add_right_comm, Int.floor_add_int]

theorem jsRound_sub_int (x : ℚ) (n : ℤ) : jsRound (x - n) = jsRound x - n := by
  have h := jsRound_add_int x (-n)
  push_cast at h
  rw [← sub_eq_add_neg] at h
  rw [h]
  ring

theorem jsRound_intCast (n : ℤ) : jsRound (n : ℚ) = n := by
  unfold jsRound
  rw [Int.floor_int_add]
  norm_num

theorem abs_jsRound_sub_le (x : ℚ) : |(jsRound x : ℚ) - x| ≤ 1/2 := by
  unfold jsRound
  rw [abs_le]
  constructor
  · have h := Int.lt_floor_add_one (x + 1/2)
    push_cast at h ⊢
    linarith
  · have h := Int.floor_le (x + 1/2)
    push_cast at h ⊢
    linarith

theorem round1_add_tenths (x : ℚ) (n : ℤ) :
    round1 (x + n / 10) = round1 x + n / 10 := by
  unfold round1
  have h : (x + (n : ℚ) / 10) * 10 + 1/2 = x * 10 + 1/2 + n := by ring
  rw [h, Int.floor_add_int]
  push_cast
  ring

theorem round1_sub_tenths (x : ℚ) (n : ℤ) :
    round1 (x - n / 10) = round1 x - n / 10 := by
  have h := round1_add_tenths x (-n)
  push_cast at h
  rw [sub_eq_add_neg, ← neg_div, h]
  ring

theorem abs_round1_sub_le (x : ℚ) : |round1 x - x| ≤ 1/20 := by
  unfold round1
  rw [abs_le]
  have h1 := Int.lt_floor_add_one (x * 10 + 1/2)
  have h2 := Int.floor_le (x * 10 + 1/2)
  constructor
  · push_cast at h1 ⊢
    linarith
  · push_cast at h2 ⊢
    linarith

/-! ## C4: schedule-mode classifier -/

/-- C4: for every zoneId of at least 0, the classifier returns Manual
exactly when currentScheduleId equals 16 + zoneId, Override exactly when it
equals 32 + zoneId, and FollowingSchedule for every other known
currentScheduleId. -/
theorem classifyScheduleMode_correct (zoneId : ℕ) (sid : ℤ) :
    (classifyScheduleMode (zoneId : ℤ) (some sid) = .manual ↔
      sid = 16 + (zoneId : ℤ)) ∧
    (classifyScheduleMode (zoneId : ℤ) (some sid) = .override ↔
      sid = 32 + (zoneId : ℤ)) ∧
    (sid ≠ 16 + (zoneId : ℤ) ∧ sid ≠ 32 + (zoneId : ℤ) →
      classifyScheduleMode (zoneId : ℤ) (some sid) = .following) := by
  unfold classifyScheduleMode isZoneManualMode isZoneOverride
    getManualModeScheduleId getOverrideScheduleId
  by_cases h1 : sid = 16 + (zoneId : ℤ) <;>
    by_cases h2 : sid = 32 + (zoneId : ℤ) <;>
      simp [h1, h2] at *

/-! ## C10: mode off fills the blended setpoint like mode cool -/

/-- C10: with desired mode off the blended setpoint fields are computed from
the cooling setpoint exactly as in cool-only mode: sp is the rounded
Fahrenheit cooling setpoint and spC the one-decimal Celsius cooling
setpoint. -/
theorem offMode_blended_setpoint_from_cooling (sid st : Option ℤ)
    (hsp csp : ℚ) (fan ufan : Option FanMode) (isF : Bool) :
    ((schedulePeriodOf (updateSetpointsCommands sid st hsp csp .off fan ufan isF).1).map
        Period.sp =
      (schedulePeriodOf (updateSetpointsCommands sid st hsp csp .cool fan ufan isF).1).map
        Period.sp) ∧
    ((schedulePeriodOf (updateSetpointsCommands sid st hsp csp .off fan ufan isF).1).map
        Period.spC =
      (schedulePeriodOf (updateSetpointsCommands sid st hsp csp .cool fan ufan isF).1).map
        Period.spC) ∧
    ((schedulePeriodOf (updateSetpointsCommands sid st hsp csp .off fan ufan isF).1).map
        Period.sp =
      some (jsRound (if isF then csp else celsiusToFahrenheit csp))) ∧
    ((schedulePeriodOf (updateSetpointsCommands sid st hsp csp .off fan ufan isF).1).map
        Period.spC =
      some (round1 (if isF then fahrenheitToCelsius csp else csp))) := by
  simp [updateSetpointsCommands, schedulePeriodOf, jsRound_intCast]

/-! ## C5: hold command emission -/

/-- C5: the builder emits the hold command exactly when the classification
is neither Manual nor existing Override (a null currentScheduleId counts as
following), and an emitted hold carries the schedule command target id, the
primary zone id 0 and expirationMode nextPeriod; with currentScheduleId 32
for zone 0 (already Override) the hold is omitted. -/
theorem holdCommand_iff_not_manual_or_override (sid st : Option ℤ)
    (hsp csp : ℚ) (mode : SystemMode) (fan ufan : Option FanMode)
    (isF : Bool) :
    ((updateSetpointsCommands sid st hsp csp mode fan ufan isF).2.isSome ↔
      (classifyScheduleMode 0 sid ≠ .manual ∧
        classifyScheduleMode 0 sid ≠ .override)) ∧
    (∀ hc, (updateSetpointsCommands sid st hsp csp mode fan ufan isF).2 = some hc →
      hc.zones.map
          (fun zone => (zone.id, zone.config.scheduleId, zone.config.expirationMode)) =
        (updateSetpointsCommands sid st hsp csp mode fan ufan isF).1.schedules.map
          (fun w => ((0 : ℤ), w.id, "nextPeriod"))) ∧
    (updateSetpointsCommands (some 32) st hsp csp mode fan ufan isF).2 = none := by
  refine ⟨?_, ?_, ?_⟩
  · cases hM : isZoneManualMode 0 sid <;> cases hO : isZoneOverride 0 sid <;>
      simp [updateSetpointsCommands, classifyScheduleMode, hM, hO]
  · intro hc hhc
    cases hM : isZoneManualMode 0 sid <;> cases hO : isZoneOverride 0 sid <;>
      simp [updateSetpointsCommands, hM, hO] at hhc ⊢ <;>
        simp [← hhc]
  · simp [updateSetpointsCommands, isZoneOverride, getOverrideScheduleId]

/-! ## C9: the in-flight flag is cleared on every exit path -/

/-- C9: however the oracles resolve (zone data present or missing, either
publish succeeding, throwing, or answering a non-1 protocol code), a call of
updateSetpoints that enters the locked section leaves the updateInProgress
flag false on exit. -/
theorem updateInProgress_cleared_on_exit (sid st : Option ℤ) (hsp csp : ℚ)
    (mode : SystemMode) (fan : Option FanMode)
    (zoneData : Option (Bool × Option FanMode))
    (schedOutcome holdOutcome : Except PublishError ℤ) :
    (updateSetpointsRun sid st hsp csp mode fan zoneData
        schedOutcome holdOutcome false).2 = false := by
  simp [updateSetpointsRun, flagTryFinally]

/-! ## C1: a protocol code other than 1 is retried, not terminal -/

/-- C1 (evaluating the code at the failing input): three sends each answered
HTTP 200 with protocol code 0 make the dispatcher perform all three send
attempts before surfacing the code failure; the first code-0 response is not
terminal. -/
theorem publishCommand_code0_retries :
    publishCommand
        [.response 0 "" 0, .response 0 "" 0, .response 0 "" 0] =
      (.error (.codeError 0 ""), 3) ∧
    (publishCommand [.response 0 "" 0, .response 0 "" 0, .response 0 "" 0]).2 ≠ 1 := by
  constructor
  · rfl
  · decide

/-! ## C2: auto-mode deadband -/

/-- C2 counterexample: for target 20 C with Fahrenheit units, the built
period has cooling minus heating equal to 6 F, not the claimed 3 F (the
source applies the 3 F gap on each side of the target). -/
theorem autoDeadband_counterexample :
    (schedulePeriodOf (setTargetTemperatureAuto 20 true none none
        .heatAndCool none none).1).map (fun p => p.csp - p.hsp) ≠ some 3 := by
  simp [setTargetTemperatureAuto, updateSetpointsCommands, schedulePeriodOf,
    celsiusToFahrenheit]
  norm_num [jsRound]

/-- C2 amended: the auto-mode builder splits the target with a gap of 3 F or
1.5 C on each side, so cooling minus heating is 6 F (or 3 C), and the
midpoint of the two setpoints equals the converted target within rounding. -/
theorem autoDeadband_six_and_midpoint (T : ℚ) (sid st : Option ℤ)
    (mode : SystemMode) (fan ufan : Option FanMode) :
    ((schedulePeriodOf (setTargetTemperatureAuto T true sid st mode fan ufan).1).map
        (fun p => p.csp - p.hsp) = some 6) ∧
    (∃ m : ℚ, (schedulePeriodOf (setTargetTemperatureAuto T true sid st mode fan ufan).1).map
        (fun p => ((p.csp : ℚ) + (p.hsp : ℚ)) / 2) = some m ∧
      |m - celsiusToFahrenheit T| ≤ 1/2) ∧
    ((schedulePeriodOf (setTargetTemperatureAuto T false sid st mode fan ufan).1).map
        (fun p => p.cspC - p.hspC) = some 3) ∧
    (∃ m : ℚ, (schedulePeriodOf (setTargetTemperatureAuto T false sid st mode fan ufan).1).map
        (fun p => (p.cspC + p.hspC) / 2) = some m ∧ |m - T| ≤ 1/20) := by
  have e3 : ∀ x : ℚ, x + 3 = x + ((3 : ℤ) : ℚ) := by intro x; norm_num
  have e3s : ∀ x : ℚ, x - 3 = x - ((3 : ℤ) : ℚ) := by intro x; norm_num
  have e15 : ∀ x : ℚ, x + 3/2 = x + ((15 : ℤ) : ℚ) / 10 := by intro x; norm_num
  have e15s : ∀ x : ℚ, x - 3/2 = x - ((15 : ℤ) : ℚ) / 10 := by intro x; norm_num
  refine ⟨?_, ⟨(jsRound (celsiusToFahrenheit T) : ℚ), ?_, abs_jsRound_sub_le _⟩,
    ?_, ⟨round1 T, ?_, abs_round1_sub_le _⟩⟩
  · simp [setTargetTemperatureAuto, updateSetpointsCommands, schedulePeriodOf]
    rw [e3 (celsiusToFahrenheit T), e3s (celsiusToFahrenheit T),
      jsRound_add_int, jsRound_sub_int]
    ring
  · simp [setTargetTemperatureAuto, updateSetpointsCommands, schedulePeriodOf]
    rw [e3 (celsiusToFahrenheit T), e3s (celsiusToFahrenheit T),
      jsRound_add_int, jsRound_sub_int]
    push_cast
    ring
  · simp [setTargetTemperatureAuto, updateSetpointsCommands, schedulePeriodOf]
    rw [e15 T, e15s T, round1_add_tenths, round1_sub_tenths]
    norm_num
  · simp [setTargetTemperatureAuto, updateSetpointsCommands, schedulePeriodOf]
    rw [e15 T, e15s T, round1_add_tenths, round1_sub_tenths]
    push_cast
    ring

/-! ## C6: dispatcher retry policy -/

theorem publishLoop_client (s : ℤ) (hs : s = 400 ∨ s = 401)
    (rest : List AttemptOutcome) (le : Option PublishError) :
    publishLoop (.httpError s :: rest) le = (.error (.httpFailure s), 1) := by
  rcases hs with h | h <;> subst h <;> simp [publishLoop]

theorem publishLoop_transport_last (o : AttemptOutcome)
    (ho : isTransportFailure o = true) (le : Option PublishError) :
    publishLoop [o] le = (.error (errorOfOutcome o), 1) := by
  cases o with
  | networkError => rfl
  | response c m r => simp [isTransportFailure] at ho
  | httpError s =>
    simp only [isTransportFailure, decide_eq_true_eq] at ho
    have h1 : ¬ (s = 401 ∨ s = 400) := by omega
    simp [publishLoop, h1, errorOfOutcome]

theorem publishLoop_transport_cons (o : AttemptOutcome)
    (ho : isTransportFailure o = true) (y : AttemptOutcome)
    (ys : List AttemptOutcome) (le : Option PublishError) :
    publishLoop (o :: y :: ys) le =
      ((publishLoop (y :: ys) (some (errorOfOutcome o))).1,
        (publishLoop (y :: ys) (some (errorOfOutcome o))).2 + 1) := by
  cases o with
  | networkError => rfl
  | response c m r => simp [isTransportFailure] at ho
  | httpError s =>
    simp only [isTransportFailure, decide_eq_true_eq] at ho
    have h1 : ¬ (s = 401 ∨ s = 400) := by omega
    simp [publishLoop, h1, ho, errorOfOutcome]

theorem publishLoop_client_after (pre : List AttemptOutcome)
    (h : pre.all isTransportFailure = true) (s : ℤ) (hs : s = 400 ∨ s = 401)
    (rest : List AttemptOutcome) (le : Option PublishError) :
    publishLoop (pre ++ .httpError s :: rest) le =
      (.error (.httpFailure s), pre.length + 1) := by
  induction pre generalizing le with
  | nil => simpa using publishLoop_client s hs rest le
  | cons o pre ih =>
    have hall := h
    simp only [List.all_cons, Bool.and_eq_true] at hall
    obtain ⟨ho, hpre⟩ := hall
    cases hsplit : pre ++ AttemptOutcome.httpError s :: rest with
    | nil => simp at hsplit
    | cons y ys =>
      rw [List.cons_append, hsplit,
        publishLoop_transport_cons o ho y ys le, ← hsplit, ih hpre]
      simp [List.length_cons]

theorem publishLoop_all_transport (l : List AttemptOutcome) (o : AttemptOutcome)
    (hlast : l.getLast? = some o) (h : l.all isTransportFailure = true)
    (le : Option PublishError) :
    publishLoop l le = (.error (errorOfOutcome o), l.length) := by
  induction l generalizing le with
  | nil => simp at hlast
  | cons x xs ih =>
    have hall := h
    simp only [List.all_cons, Bool.and_eq_true] at hall
    obtain ⟨hx, hxs⟩ := hall
    cases xs with
    | nil =>
      simp only [List.getLast?_singleton, Option.some.injEq] at hlast
      subst hlast
      simpa using publishLoop_transport_last x hx le
    | cons y ys =>
      rw [List.getLast?_cons_cons] at hlast
      rw [publishLoop_transport_cons x hx y ys le, ih hlast hxs]
      simp [List.length_cons]

/-- C6: client errors 400 and 401 are terminal on the attempt that sees them
(after any run of transport failures there is exactly one more send and the
HTTP failure is surfaced); a run entirely of transport failures (network
errors or 5xx responses) performs one send per allowed attempt and then
surfaces the last error, as the all-network run of length 3 (the default
bound) illustrates. -/
theorem publishCommand_retry_policy :
    (∀ pre rest (s : ℤ), pre.all isTransportFailure = true →
      (s = 400 ∨ s = 401) →
      publishCommand (pre ++ .httpError s :: rest) =
        (.error (.httpFailure s), pre.length + 1)) ∧
    (∀ outcomes o, outcomes.getLast? = some o →
      outcomes.all isTransportFailure = true →
      publishCommand outcomes = (.error (errorOfOutcome o), outcomes.length)) ∧
    publishCommand [.networkError, .networkError, .networkError] =
      (.error .networkFailure, 3) := by
  refine ⟨fun pre rest s h hs => publishLoop_client_after pre h s hs rest none,
    fun outcomes o hlast h => publishLoop_all_transport outcomes o hlast h none,
    rfl⟩

/-! ## C7: unit inference at hsp 68 / hspC 18.0 -/

/-- C7 counterexample: at the claimed telemetry input the step-1
compare-both test does not decide Fahrenheit, because the difference between
the supplied 18.0 and the expected 20.0 is exactly 2, not below the
threshold; the answer does not come from the step-1 branch. -/
theorem inferDispUnits68_counterexample :
    inferDispUnits "auto" (some 68) (some 18) none ≠
      (DispUnits.F, UnitBranch.bothDiffF) := by
  have habs : |(18 : ℚ) - (68 - 32) * 5 / 9| = 2 := by
    rw [show (18 : ℚ) - (68 - 32) * 5 / 9 = -2 by norm_num, abs_neg]
    norm_num
  simp only [inferDispUnits, habs]
  norm_num
  decide

/-- C7 amended: at that input the step-1 test is evaluated first but falls
through (the difference is exactly 2), and Fahrenheit is concluded by the
range heuristic on hsp 68; the returned unit system is still F. -/
theorem inferDispUnits68_range_fallback :
    inferDispUnits "auto" (some 68) (some 18) none =
      (DispUnits.F, UnitBranch.bothRangeF) ∧
    |(18 : ℚ) - (68 - 32) * 5 / 9| = 2 := by
  have habs : |(18 : ℚ) - (68 - 32) * 5 / 9| = 2 := by
    rw [show (18 : ℚ) - (68 - 32) * 5 / 9 = -2 by norm_num, abs_neg]
    norm_num
  refine ⟨?_, habs⟩
  simp only [inferDispUnits, habs]
  norm_num
  decide

/-! ## C8: the probe can throw on an array whose head is null -/

/-- C8 (evaluating the code at the failing input): for the payload that is a
one-element array containing null, the shape probe of
parseZonesToSubstatuses reads the id property of the null element (the
array-of-zones condition) and the TypeError escapes instead of an empty
zone list being returned. -/
theorem parseZones_throws_on_null_head :
    parseZonesToSubstatuses 0 (Json.arr [Json.null]) =
      Except.error "TypeError: cannot read id of null" := by
  rfl

/-! ## C3: overlapping updateSetpoints calls -/

/-- C3 counterexample: a schedule where the first call completes while the
second is inside the bounded wait; the second call then takes the lock and
dispatches its own command pair, so two pairs are dispatched in total, not
one. -/
theorem twoCalls_second_dispatches_after_wait :
    pairsDispatched (runTwoCall secondArrivesInFlight
        ([CallId.second] ++ List.replicate 5 CallId.first ++
          [CallId.second] ++ List.replicate 5 CallId.second)) ≠ 1 := by
  decide

/-- The inductive invariant of the two-call system started from
secondArrivesInFlight: the first call is locked or finished, the flag is
exactly lock ownership, at most one call is locked, and the second call can
only have dispatched once the first has finished. -/
def TwoCallInv (s : TwoCallState) : Prop :=
  (isLockedPhase s.first = true ∨ s.first = .finished) ∧
  s.updateInProgress = (isLockedPhase s.first || isLockedPhase s.second) ∧
  ¬ (isLockedPhase s.first = true ∧ isLockedPhase s.second = true) ∧
  (hasDispatched s.second = true → s.first = .finished)

theorem twoCallInv_init : TwoCallInv secondArrivesInFlight := by
  refine ⟨Or.inl rfl, rfl, ?_, ?_⟩
  · intro hx
    exact absurd hx.2 (by decide)
  · intro hx
    exact absurd hx (by decide)

@[simp] theorem isLockedPhase_entry : isLockedPhase .entry = false := rfl

@[simp] theorem isLockedPhase_waiting (p : ℕ) :
    isLockedPhase (.waiting p) = false := rfl

@[simp] theorem isLockedPhase_locked (k : ℕ) :
    isLockedPhase (.locked k) = true := rfl

@[simp] theorem isLockedPhase_finished : isLockedPhase .finished = false := rfl

@[simp] theorem isLockedPhase_abandoned : isLockedPhase .abandoned = false := rfl

@[simp] theorem hasDispatched_entry : hasDispatched .entry = false := rfl

@[simp] theorem hasDispatched_waiting (p : ℕ) :
    hasDispatched (.waiting p) = false := rfl

@[simp] theorem hasDispatched_locked (k : ℕ) :
    hasDispatched (.locked k) = true := rfl

@[simp] theorem hasDispatched_finished : hasDispatched .finished = true := rfl

@[simp] theorem hasDispatched_abandoned : hasDispatched .abandoned = false := rfl

theorem stepTwoCall_first_proj (s : TwoCallState) :
    stepTwoCall s .first =
      { first := (stepPhase s.updateInProgress s.first).1
        second := s.second
        updateInProgress := (stepPhase s.updateInProgress s.first).2 } := rfl

theorem stepTwoCall_second_proj (s : TwoCallState) :
    stepTwoCall s .second =
      { first := s.first
        second := (stepPhase s.updateInProgress s.second).1
        updateInProgress := (stepPhase s.updateInProgress s.second).2 } := rfl

theorem twoCallInv_step (s : TwoCallState) (c : CallId) (h : TwoCallInv s) :
    TwoCallInv (stepTwoCall s c) := by
  obtain ⟨h1, h2, h3, h4⟩ := h
  have notLockedSecond : isLockedPhase s.first = true →
      isLockedPhase s.second = false := by
    intro hfL
    cases hb : isLockedPhase s.second
    · rfl
    · exact absurd ⟨hfL, hb⟩ h3
  have notDispatchedSecond : ∀ k, s.first = .locked k →
      hasDispatched s.second = false := by
    intro k hf
    cases hb : hasDispatched s.second
    · rfl
    · rw [h4 hb] at hf
      exact absurd hf (by simp)
  cases c with
  | first =>
    rw [stepTwoCall_first_proj]
    rcases h1 with hL | hF
    · cases hf : s.first with
      | entry => rw [hf] at hL; simp at hL
      | waiting p => rw [hf] at hL; simp at hL
      | finished => rw [hf] at hL; simp at hL
      | abandoned => rw [hf] at hL; simp at hL
      | locked k =>
        have hflag : s.updateInProgress = true := by
          rw [h2, hf]
          simp
        have hM : isLockedPhase s.second = false :=
          notLockedSecond (by rw [hf]; simp)
        have hD : hasDispatched s.second = false := notDispatchedSecond k hf
        rw [hflag]
        cases k with
        | zero =>
          refine ⟨Or.inr (by simp [stepPhase]), ?_, ?_,
            fun _ => by simp [stepPhase]⟩
          · simp [stepPhase, hM]
          · simp [stepPhase]
        | succ k =>
          refine ⟨Or.inl (by simp [stepPhase]), ?_, ?_, ?_⟩
          · simp [stepPhase]
          · simp [stepPhase, hM]
          · intro hb
            simp only [stepPhase] at hb
            simp [hD] at hb
    · rw [hF]
      refine ⟨Or.inr (by simp [stepPhase]), ?_, ?_,
        fun _ => by simp [stepPhase]⟩
      · rw [hF] at h2
        simpa [stepPhase] using h2
      · intro hx
        simp [stepPhase] at hx
  | second =>
    rw [stepTwoCall_second_proj]
    have firstFromFlagFalse : s.updateInProgress = false →
        isLockedPhase s.second = false → s.first = .finished := by
      intro hflag hbM
      rcases h1 with hL | hF
      · rw [hflag, hbM, Bool.or_false] at h2
        rw [hL] at h2
        exact absurd h2.symm (by decide)
      · exact hF
    cases hs : s.second with
    | entry =>
      cases hflag : s.updateInProgress with
      | true =>
        refine ⟨h1, ?_, ?_, ?_⟩
        · rw [hs, hflag] at h2
          simpa [stepPhase] using h2
        · intro hx
          simp [stepPhase] at hx
        · intro hx
          simp [stepPhase] at hx
      | false =>
        have hfin : s.first = .finished :=
          firstFromFlagFalse hflag (by rw [hs]; simp)
        refine ⟨Or.inr hfin, ?_, ?_, fun _ => hfin⟩
        · rw [hfin]
          simp [stepPhase]
        · intro hx
          rw [hfin] at hx
          simp at hx
    | waiting p =>
      cases hflag : s.updateInProgress with
      | true =>
        by_cases hp : p + 1 < 50
        · refine ⟨h1, ?_, ?_, ?_⟩
          · rw [hs, hflag] at h2
            simpa [stepPhase, hp] using h2
          · intro hx
            simp [stepPhase, hp] at hx
          · intro hx
            simp [stepPhase, hp] at hx
        · refine ⟨h1, ?_, ?_, ?_⟩
          · rw [hs, hflag] at h2
            simpa [stepPhase, hp] using h2
          · intro hx
            simp [stepPhase, hp] at hx
          · intro hx
            simp [stepPhase, hp] at hx
      | false =>
        have hfin : s.first = .finished :=
          firstFromFlagFalse hflag (by rw [hs]; simp)
        refine ⟨Or.inr hfin, ?_, ?_, fun _ => hfin⟩
        · rw [hfin]
          simp [stepPhase]
        · intro hx
          rw [hfin] at hx
          simp at hx
    | locked k =>
      have hfin : s.first = .finished := h4 (by rw [hs]; simp)
      cases k with
      | zero =>
        refine ⟨Or.inr hfin, ?_, ?_, fun _ => hfin⟩
        · rw [hfin]
          simp [stepPhase]
        · intro hx
          rw [hfin] at hx
          simp at hx
      | succ k =>
        refine ⟨Or.inr hfin, ?_, ?_, fun _ => hfin⟩
        · rw [hs, hfin] at h2
          rw [hfin]
          simpa [stepPhase] using h2
        · intro hx
          rw [hfin] at hx
          simp at hx
    | finished =>
      have hfin : s.first = .finished := h4 (by rw [hs]; simp)
      refine ⟨Or.inr hfin, ?_, ?_, fun _ => hfin⟩
      · rw [hs] at h2
        simpa [stepPhase] using h2
      · intro hx
        rw [hfin] at hx
        simp at hx
    | abandoned =>
      refine ⟨h1, ?_, ?_, ?_⟩
      · rw [hs] at h2
        simpa [stepPhase] using h2
      · intro hx
        simp [stepPhase] at hx
      · intro hx
        simp [stepPhase] at hx

theorem twoCallInv_run (sched : List CallId) :
    ∀ s, TwoCallInv s → TwoCallInv (runTwoCall s sched) := by
  induction sched with
  | nil => intro s h; exact h
  | cons c rest ih =>
    intro s h
    exact ih (stepTwoCall s c) (twoCallInv_step s c h)

/-- C3 amended: under every interleaving from the in-flight scenario the two
calls are serialized, never concurrently dispatching: at no point are both
inside the locked section, the second call dispatches only after the first
has finished, and at most two command pairs are dispatched in total (one per
call; the second call contributes none when it is abandoned by the bounded
wait). -/
theorem twoCalls_serialized (sched : List CallId) :
    ¬ (isLockedPhase (runTwoCall secondArrivesInFlight sched).first = true ∧
        isLockedPhase (runTwoCall secondArrivesInFlight sched).second = true) ∧
    (hasDispatched (runTwoCall secondArrivesInFlight sched).second = true →
      (runTwoCall secondArrivesInFlight sched).first = .finished) ∧
    pairsDispatched (runTwoCall secondArrivesInFlight sched) ≤ 2 := by
  have h := twoCallInv_run sched secondArrivesInFlight twoCallInv_init
  obtain ⟨h1, h2, h3, h4⟩ := h
  refine ⟨h3, h4, ?_⟩
  unfold pairsDispatched
  split <;> split <;> omega
